import Mathlib

/-
Verification development for the insurance-tracker PDF field extractor
(app/main.py, extract_insurance_data and helpers; app/validators.py,
validate_vin).

The extractor consumes PDF bytes; the PDF library (fitz) is external to the
repository, so its outcome is modelled as an input value: a failed open
(corrupt stream, encrypted document, non-PDF bytes) is `none`, a successful
open is `some doc` where `doc` is the list of pages, each a list of
positioned text blocks.  Everything after the fitz call is embedded from
the source: whitespace normalization, label-proximity windows, and the
regular-expression scans (modelled with Python leftmost-match and
backtracking semantics for the concrete patterns used by the source).
Strings are lists of unicode characters, as in Python.
-/

-- ===== character classes (Python re semantics for the characters used) =====

def isWsChar (c : Char) : Bool :=
  c == ' ' || c == '\t' || c == '\n' || c == '\r' || c == Char.ofNat 11 || c == Char.ofNat 12

def isDigitC (c : Char) : Bool := '0' ≤ c && c ≤ '9'

def isUpperAZ (c : Char) : Bool := 'A' ≤ c && c ≤ 'Z'

def isLowerAZ (c : Char) : Bool := 'a' ≤ c && c ≤ 'z'

def isRoUpper (c : Char) : Bool :=
  c == 'Ă' || c == 'Â' || c == 'Î' || c == 'Ș' || c == 'Ț' || c == 'Ş' || c == 'Ţ'

def isRoLower (c : Char) : Bool :=
  c == 'ă' || c == 'â' || c == 'î' || c == 'ș' || c == 'ț' || c == 'ş' || c == 'ţ'

/-- Word characters for the \b and \w of Python re, restricted to the
alphabet actually reachable in this development: ASCII letters, digits,
underscore, and the Romanian diacritic letters used by the source. -/
def isWordChar (c : Char) : Bool :=
  isUpperAZ c || isLowerAZ c || isDigitC c || c == '_' || isRoUpper c || isRoLower c

/-- VIN alphabet: A-Z and 0-9 excluding I, O, Q. -/
def isVinChar (c : Char) : Bool :=
  isDigitC c || (isUpperAZ c && !(c == 'I') && !(c == 'O') && !(c == 'Q'))

/-- Lowercasing as str.lower does on the characters used by the source. -/
def lowerC (c : Char) : Char :=
  if isUpperAZ c then Char.ofNat (c.toNat + 32)
  else if c == 'Ă' then 'ă' else if c == 'Â' then 'â' else if c == 'Î' then 'î'
  else if c == 'Ș' then 'ș' else if c == 'Ț' then 'ț'
  else if c == 'Ş' then 'ş' else if c == 'Ţ' then 'ţ'
  else c

/-- Uppercasing as str.upper does on the characters relevant to plates. -/
def upperC (c : Char) : Char :=
  if isLowerAZ c then Char.ofNat (c.toNat - 32) else c

-- ===== norm_ws: re.sub(r"\s+", " ", s).strip() =====

/-- Replace every maximal whitespace run by one space; the flag records
whether the previous character was whitespace. -/
def squeezeWs : Bool → List Char → List Char
  | _, [] => []
  | prevWs, c :: cs =>
    if isWsChar c then
      (if prevWs then squeezeWs true cs else ' ' :: squeezeWs true cs)
    else c :: squeezeWs false cs

/-- Model of str.strip(): drop whitespace from both ends. -/
def stripChars (s : List Char) : List Char :=
  ((s.dropWhile isWsChar).reverse.dropWhile isWsChar).reverse

/-- Model of the norm_ws helper in extract_insurance_data. -/
def norm_ws (s : List Char) : List Char := stripChars (squeezeWs false s)

-- ===== to_iso: strptime over %d.%m.%Y / %d-%m-%Y / %d/%m/%Y =====

def dval (c : Char) : Nat := c.toNat - 48

def isDig19 (c : Char) : Bool := '1' ≤ c && c ≤ '9'

/-- CPython strptime day field, regex (3[01]|[12]\d|0[1-9]|[1-9]). -/
def matchDay : List Char → Option (Nat × List Char)
  | c1 :: c2 :: rest =>
    if c1 == '3' && (c2 == '0' || c2 == '1') then some (30 + dval c2, rest)
    else if (c1 == '1' || c1 == '2') && isDigitC c2 then some (dval c1 * 10 + dval c2, rest)
    else if c1 == '0' && isDig19 c2 then some (dval c2, rest)
    else if isDig19 c1 then some (dval c1, c2 :: rest)
    else none
  | [c1] => if isDig19 c1 then some (dval c1, []) else none
  | [] => none

/-- CPython strptime month field, regex (1[0-2]|0[1-9]|[1-9]). -/
def matchMonth : List Char → Option (Nat × List Char)
  | c1 :: c2 :: rest =>
    if c1 == '1' && (c2 == '0' || c2 == '1' || c2 == '2') then some (10 + dval c2, rest)
    else if c1 == '0' && isDig19 c2 then some (dval c2, rest)
    else if isDig19 c1 then some (dval c1, c2 :: rest)
    else none
  | [c1] => if isDig19 c1 then some (dval c1, []) else none
  | [] => none

/-- CPython strptime year field, exactly four digits. -/
def matchYear : List Char → Option (Nat × List Char)
  | a :: b :: c :: d :: rest =>
    if isDigitC a && isDigitC b && isDigitC c && isDigitC d then
      some (dval a * 1000 + dval b * 100 + dval c * 10 + dval d, rest)
    else none
  | _ => none

def matchSep (c : Char) : List Char → Option (List Char)
  | d :: rest => if d == c then some rest else none
  | [] => none

def isLeap (y : Nat) : Bool := y % 4 == 0 && (!(y % 100 == 0) || y % 400 == 0)

def daysInMonth (y m : Nat) : Nat :=
  if m == 2 then (if isLeap y then 29 else 28)
  else if m == 4 || m == 6 || m == 9 || m == 11 then 30
  else 31

/-- Validity check performed by the datetime constructor. -/
def validDate (y m d : Nat) : Bool :=
  decide (1 ≤ y) && decide (1 ≤ m) && decide (m ≤ 12) && decide (1 ≤ d) &&
  decide (d ≤ daysInMonth y m)

/-- Parse with one of the three accepted formats; the whole string must be
consumed, and the date must be a real calendar date. -/
def strptimeDMY (sep : Char) (s : List Char) : Option (Nat × Nat × Nat) :=
  match matchDay s with
  | none => none
  | some (d, r1) =>
    match matchSep sep r1 with
    | none => none
    | some r2 =>
      match matchMonth r2 with
      | none => none
      | some (mo, r3) =>
        match matchSep sep r3 with
        | none => none
        | some r4 =>
          match matchYear r4 with
          | none => none
          | some (y, r5) =>
            if r5.isEmpty && validDate y mo d then some (y, mo, d) else none

def digitChar (n : Nat) : Char := Char.ofNat (48 + n)

def pad2 (n : Nat) : List Char := [digitChar (n / 10 % 10), digitChar (n % 10)]

def pad4 (n : Nat) : List Char :=
  [digitChar (n / 1000 % 10), digitChar (n / 100 % 10), digitChar (n / 10 % 10), digitChar (n % 10)]

/-- Model of the to_iso helper: try the three formats in order, render
YYYY-MM-DD, or return the empty string on failure. -/
def to_iso (s : List Char) : List Char :=
  match (strptimeDMY '.' s).orElse fun _ => (strptimeDMY '-' s).orElse fun _ => strptimeDMY '/' s with
  | some (y, mo, d) => pad4 y ++ '-' :: (pad2 mo ++ '-' :: pad2 d)
  | none => []

-- ===== generic leftmost scan =====

/-- Leftmost index search used to model re.search: try i, i+1, ... for the
given number of steps. -/
def firstIdxFrom (p : Nat → Bool) (i : Nat) : Nat → Option Nat
  | 0 => none
  | fuel + 1 => if p i then some i else firstIdxFrom p (i + 1) fuel

abbrev firstIdx (p : Nat → Bool) (n : Nat) : Option Nat := firstIdxFrom p 0 n

def chAt (s : List Char) (i : Nat) : Char := s.getD i (Char.ofNat 0)

def sliceTD (s : List Char) (i n : Nat) : List Char := (s.drop i).take n

def wordAt (s : List Char) (i : Nat) : Bool := isWordChar (chAt s i)

def spaceAt (s : List Char) (i : Nat) : Bool := isWsChar (chAt s i)

/-- Python \b: a word boundary holds at position p when exactly one side is
a word character (positions outside the string count as non-word). -/
def bAt (s : List Char) (p : Nat) : Bool :=
  (if p == 0 then false else wordAt s (p - 1)) != wordAt s p

def skipWsIdx (s : List Char) (i : Nat) : Nat :=
  i + ((s.drop i).takeWhile isWsChar).length

/-- Case-insensitive literal match at a position; the pattern is given
already lowercased. -/
def litCIAt (s : List Char) (i : Nat) (p : List Char) : Bool :=
  (sliceTD s i p.length).map lowerC == p

/-- Model of str.find on the lowercased text, as used by find_after. -/
def strFindIdx (hay needle : List Char) : Option Nat :=
  firstIdx (fun i => litCIAt hay i needle) hay.length

/-- Model of the find_after helper: the first label found (labels tried in
order) opens a window of label-length + maxChars characters. -/
def find_after (flat : List Char) (labels : List (List Char)) (maxChars : Nat) : List Char :=
  match labels with
  | [] => []
  | lab :: rest =>
    match strFindIdx flat (lab.map lowerC) with
    | some i => sliceTD flat i (lab.length + maxChars)
    | none => find_after flat rest maxChars

-- ===== VIN search: \b([A-HJ-NPR-Z0-9]{17})\b =====

def vinHit (s : List Char) (i : Nat) : Bool :=
  decide (i + 17 ≤ s.length) &&
  (i == 0 || !wordAt s (i - 1)) &&
  (sliceTD s i 17).all isVinChar &&
  !wordAt s (i + 17)

def vinSearch (s : List Char) : Option (List Char) :=
  (firstIdx (fun i => vinHit s i) s.length).map fun i => sliceTD s i 17

-- ===== plate search: \b((?:[A-Z]{2}\s?\d{2,3}\s?[A-Z]{3})|(?:B\s?\d{2,3}\s?[A-Z]{3}))\b =====

def lettersAt (s : List Char) (i n : Nat) : Bool :=
  decide (i + n ≤ s.length) && (sliceTD s i n).all isUpperAZ

def digitsAt (s : List Char) (i n : Nat) : Bool :=
  decide (i + n ≤ s.length) && (sliceTD s i n).all isDigitC

/-- One backtracking alternative of the tail \s?\d{2,3}\s?[A-Z]{3}\b after
the county letters: sp1/sp2 say whether each \s? consumes, nd is the digit
count.  Returns the end position on success. -/
def plateCombo (s : List Char) (pos0 : Nat) (sp1 : Bool) (nd : Nat) (sp2 : Bool) : Option Nat :=
  let p1 := if sp1 then pos0 + 1 else pos0
  let p2 := p1 + nd
  let p3 := if sp2 then p2 + 1 else p2
  let p4 := p3 + 3
  if (if sp1 then spaceAt s pos0 else true) && digitsAt s p1 nd &&
     (if sp2 then spaceAt s p2 else true) && lettersAt s p3 3 && !wordAt s p4
  then some p4 else none

/-- Greedy backtracking order of Python re: \s? prefers present, \d{2,3}
prefers three digits. -/
def plateTail (s : List Char) (pos0 : Nat) : Option Nat :=
  (plateCombo s pos0 true 3 true).orElse fun _ =>
  (plateCombo s pos0 true 3 false).orElse fun _ =>
  (plateCombo s pos0 true 2 true).orElse fun _ =>
  (plateCombo s pos0 true 2 false).orElse fun _ =>
  (plateCombo s pos0 false 3 true).orElse fun _ =>
  (plateCombo s pos0 false 3 false).orElse fun _ =>
  (plateCombo s pos0 false 2 true).orElse fun _ =>
  plateCombo s pos0 false 2 false

/-- Whole-pattern match at one position: two-letter county first, then the
B alternative, leading word boundary checked up front (the first matched
character is always a letter). -/
def plateHit (s : List Char) (i : Nat) : Option Nat :=
  if i == 0 || !wordAt s (i - 1) then
    (if lettersAt s i 2 then plateTail s (i + 2) else none).orElse fun _ =>
    (if chAt s i == 'B' then plateTail s (i + 1) else none)
  else none

def plateSearch (s : List Char) : Option (List Char) :=
  match firstIdx (fun i => (plateHit s i).isSome) s.length with
  | some i =>
    match plateHit s i with
    | some e => some (sliceTD s i (e - i))
    | none => none
  | none => none

-- ===== normalize_plate =====

/-- Strip all non-alphanumerics after uppercasing, as re.sub("[^A-Z0-9]", "", p.upper()). -/
def stripNonAlnum (p : List Char) : List Char :=
  (p.map upperC).filter fun c => isUpperAZ c || isDigitC c

/-- Anchored match of ^B(\d{2,3})([A-Z]{3})$ with the canonical respacing. -/
def matchBPlate (q : List Char) : Option (List Char) :=
  if chAt q 0 == 'B' && decide (1 ≤ q.length) then
    let ds := (q.drop 1).takeWhile isDigitC
    let rest := (q.drop 1).dropWhile isDigitC
    if (ds.length == 2 || ds.length == 3) && rest.length == 3 && rest.all isUpperAZ
    then some ('B' :: ' ' :: (ds ++ ' ' :: rest))
    else none
  else none

/-- Anchored match of ^([A-Z]{2})(\d{2,3})([A-Z]{3})$ with the canonical respacing. -/
def matchTwoPlate (q : List Char) : Option (List Char) :=
  let cs := q.take 2
  if cs.length == 2 && cs.all isUpperAZ then
    let ds := (q.drop 2).takeWhile isDigitC
    let rest := (q.drop 2).dropWhile isDigitC
    if (ds.length == 2 || ds.length == 3) && rest.length == 3 && rest.all isUpperAZ
    then some (cs ++ ' ' :: (ds ++ ' ' :: rest))
    else none
  else none

/-- Model of normalize_plate: strip and uppercase, then respace only when
the stripped length is 7 or 8, trying the one-letter-county rule first. -/
def normalize_plate (p : List Char) : List Char :=
  let q := stripNonAlnum p
  if q.length == 7 || q.length == 8 then
    match matchBPlate q with
    | some r => r
    | none =>
      match matchTwoPlate q with
      | some r => r
      | none => q
  else q

-- ===== date searches =====

/-- Date token: two digits, separator, two digits, separator, four digits,
with each separator one of dot, slash, dash, anchored at a position. -/
def isSepC (c : Char) : Bool := c == '.' || c == '/' || c == '-'

def dateTokAt (s : List Char) (i : Nat) : Bool :=
  decide (i + 10 ≤ s.length) &&
  isDigitC (chAt s i) && isDigitC (chAt s (i + 1)) && isSepC (chAt s (i + 2)) &&
  isDigitC (chAt s (i + 3)) && isDigitC (chAt s (i + 4)) && isSepC (chAt s (i + 5)) &&
  isDigitC (chAt s (i + 6)) && isDigitC (chAt s (i + 7)) && isDigitC (chAt s (i + 8)) &&
  isDigitC (chAt s (i + 9))

/-- Pattern de la\s*(date), case-insensitive, anchored at a position. -/
def deLaHit (s : List Char) (i : Nat) : Option (List Char) :=
  if litCIAt s i ['d', 'e', ' ', 'l', 'a'] then
    let j := skipWsIdx s (i + 5)
    if dateTokAt s j then some (sliceTD s j 10) else none
  else none

def deLaSearch (s : List Char) : Option (List Char) :=
  match firstIdx (fun i => (deLaHit s i).isSome) s.length with
  | some i => deLaHit s i
  | none => none

/-- Pattern p[aă]n[ăa]\s*la\s*(date), case-insensitive, anchored at a
position.  Note the character classes admit a and ă only. -/
def panaHit (s : List Char) (i : Nat) : Option (List Char) :=
  if lowerC (chAt s i) == 'p' &&
     (lowerC (chAt s (i + 1)) == 'a' || lowerC (chAt s (i + 1)) == 'ă') &&
     lowerC (chAt s (i + 2)) == 'n' &&
     (lowerC (chAt s (i + 3)) == 'ă' || lowerC (chAt s (i + 3)) == 'a') &&
     decide (i + 4 ≤ s.length) then
    let j := skipWsIdx s (i + 4)
    if lowerC (chAt s j) == 'l' && lowerC (chAt s (j + 1)) == 'a' then
      let k := skipWsIdx s (j + 2)
      if dateTokAt s k then some (sliceTD s k 10) else none
    else none
  else none

def panaSearch (s : List Char) : Option (List Char) :=
  match firstIdx (fun i => (panaHit s i).isSome) s.length with
  | some i => panaHit s i
  | none => none

/-- Model of re.findall for the date token: non-overlapping matches left to
right, advancing past each match. -/
def dateFindallFrom (s : List Char) : Nat → Nat → List (List Char)
  | _, 0 => []
  | i, fuel + 1 =>
    if dateTokAt s i then sliceTD s i 10 :: dateFindallFrom s (i + 10) fuel
    else dateFindallFrom s (i + 1) fuel

def dateFindall (s : List Char) : List (List Char) := dateFindallFrom s 0 s.length

-- ===== sorted(set(...)) over parsed dates =====

def lexLt : List Char → List Char → Bool
  | [], [] => false
  | [], _ :: _ => true
  | _ :: _, [] => false
  | a :: as, b :: bs => if a < b then true else if a == b then lexLt as bs else false

def insertDedup (x : List Char) : List (List Char) → List (List Char)
  | [] => [x]
  | y :: ys => if lexLt x y then x :: y :: ys else if x == y then y :: ys else y :: insertDedup x ys

/-- Sorted deduplicated list; on fixed-width ISO strings the lexicographic
order coincides with the chronological order of the parsed datetimes. -/
def dedupSortLex (l : List (List Char)) : List (List Char) := l.foldr insertDedup []

-- ===== the extraction pipeline =====

def vinLabels : List (List Char) :=
  ["VIN".data, "Serie șasiu".data, "Serie sasiu".data, "Serie CIV".data, "Serie".data]

def plateLabels : List (List Char) :=
  ["nr. înmatriculare".data, "nr inmatriculare".data, "număr înmatriculare".data,
   "numar inmatriculare".data, "înregistrare".data, "inregistrare".data]

def dateLabels : List (List Char) :=
  ["valabilitate contract".data, "perioada de asigurare".data, "valabilitate".data]

def nameLabels : List (List Char) :=
  ["asigurat".data, "proprietar".data, "utilizator".data, "asigurat proprietar".data]

/-- VIN extraction: global search first, then the label window. -/
def vinOf (flat : List Char) : List Char :=
  match vinSearch flat with
  | some v => v
  | none =>
    match vinSearch (find_after flat vinLabels 120) with
    | some v => v
    | none => []

/-- Plate extraction: global search first, then the label window, then
normalization of the matched group. -/
def plateOf (flat : List Char) : List Char :=
  match plateSearch flat with
  | some g => normalize_plate g
  | none =>
    match plateSearch (find_after flat plateLabels 80) with
    | some g => normalize_plate g
    | none => []

def date_window (flat : List Char) : List Char := find_after flat dateLabels 200

def windowStart (flat : List Char) : List Char :=
  match deLaSearch (date_window flat) with
  | some d => to_iso d
  | none => []

def windowEnd (flat : List Char) : List Char :=
  match panaSearch (date_window flat) with
  | some d => to_iso d
  | none => []

/-- All date tokens of the whole document, parsed, deduplicated, sorted. -/
def sortedDates (flat : List Char) : List (List Char) :=
  dedupSortLex (((dateFindall flat).map to_iso).filter fun d => !d.isEmpty)

/-- Start and end dates: window first, then the global fallback exactly as
in the source (earliest fills a missing start; the latest fills a missing
end only when at least two distinct dates exist). -/
def datesOf (flat : List Char) : List Char × List Char :=
  if (windowStart flat).isEmpty || (windowEnd flat).isEmpty then
    if (sortedDates flat).isEmpty then (windowStart flat, windowEnd flat)
    else
      ((if (windowStart flat).isEmpty then (sortedDates flat).headD [] else windowStart flat),
       (if (windowEnd flat).isEmpty && decide (1 < (sortedDates flat).length)
        then (sortedDates flat).getLastD [] else windowEnd flat))
  else (windowStart flat, windowEnd flat)

-- ===== name search =====

def isCapChar (c : Char) : Bool := isUpperAZ c || isRoUpper c

def isCapWordChar (c : Char) : Bool := isCapChar c || c == '-' || c == Char.ofNat 39

/-- End position of one cap_word [A-ZĂÂÎȘȚ][A-ZĂÂÎȘȚ\-,apostrophe]+ starting
at a position (at least two characters, greedy). -/
def capWordEnd (s : List Char) (i : Nat) : Option Nat :=
  if isCapChar (chAt s i) then
    let t := ((s.drop (i + 1)).takeWhile isCapWordChar).length
    if t == 0 then none else some (i + 1 + t)
  else none

/-- Greedy extension by up to k further (\s+ cap_word) groups. -/
def extendWords (s : List Char) (e : Nat) : Nat → Nat
  | 0 => e
  | k + 1 =>
    let j := skipWsIdx s e
    if e < j then
      match capWordEnd s j with
      | some e2 => extendWords s e2 k
      | none => e
    else e

/-- Window pattern (cap_word(?:\s+cap_word){1,3}) anchored at a position:
two to four words, greedy, no boundary assertions. -/
def nameWinHit (s : List Char) (i : Nat) : Option (List Char) :=
  match capWordEnd s i with
  | some e1 =>
    let j := skipWsIdx s e1
    if e1 < j then
      match capWordEnd s j with
      | some e2 => some (sliceTD s i (extendWords s e2 2 - i))
      | none => none
    else none
  | none => none

def nameWinSearch (s : List Char) : Option (List Char) :=
  match firstIdx (fun i => (nameWinHit s i).isSome) s.length with
  | some i => nameWinHit s i
  | none => none

/-- Backtracking helper: word endings hi, hi-1, ... for fuel+1 candidates,
first one at a boundary wins (the + quantifier of cap_word gives back
characters until the trailing \b can hold). -/
def btEnd (s : List Char) : Nat → Nat → Option Nat
  | hi, 0 => if bAt s hi then some hi else none
  | hi, k + 1 => if bAt s hi then some hi else btEnd s (hi - 1) k

/-- Fallback pattern \b(cap_word\s+cap_word(?:\s+cap_word)?)\b anchored at
a position: two or three words with surrounding word boundaries. -/
def nameFallHit (s : List Char) (i : Nat) : Option (List Char) :=
  if i == 0 || !wordAt s (i - 1) then
    match capWordEnd s i with
    | some e1 =>
      let j := skipWsIdx s e1
      if e1 < j then
        match capWordEnd s j with
        | some e2 =>
          let afterThird : Option Nat :=
            (let j2 := skipWsIdx s e2
             if e2 < j2 then
               match capWordEnd s j2 with
               | some e3 => btEnd s e3 (e3 - (j2 + 2))
               | none => none
             else none)
          match afterThird with
          | some e => some (sliceTD s i (e - i))
          | none =>
            match btEnd s e2 (e2 - (j + 2)) with
            | some e => some (sliceTD s i (e - i))
            | none => none
        | none => none
      else none
    | none => none
  else none

def nameFallSearch (s : List Char) : Option (List Char) :=
  match firstIdx (fun i => (nameFallHit s i).isSome) s.length with
  | some i => nameFallHit s i
  | none => none

/-- Name extraction: the label window first, the whole-document fallback
only when the window yields nothing. -/
def nameOf (flat : List Char) : List Char :=
  match nameWinSearch (find_after flat nameLabels 120) with
  | some g => g
  | none =>
    match nameFallSearch flat with
    | some g => g
    | none => []

-- ===== whole extractor =====

structure Fields where
  name : List Char
  vin_number : List Char
  plate_number : List Char
  insurance_start : List Char
  insurance_end : List Char

/-- Field extraction from the reconstructed text (the part of
extract_insurance_data after the PDF was opened successfully). -/
def extract_fields (text : List Char) : Fields :=
  let flat := norm_ws text
  let ds := datesOf flat
  Fields.mk (stripChars (nameOf flat)) (stripChars (vinOf flat))
    (stripChars (plateOf flat)) ds.1 ds.2

/-- One positioned text block, coordinates already rounded as the source
rounds them before sorting. -/
structure Block where
  x0 : Int
  y0 : Int
  text : List Char

def blockLe (a b : Block) : Bool :=
  decide (a.y0 < b.y0) || (a.y0 == b.y0 && decide (a.x0 ≤ b.x0))

def insertBlock (x : Block) : List Block → List Block
  | [] => [x]
  | y :: ys => if blockLe x y then x :: y :: ys else y :: insertBlock x ys

/-- Stable sort by (rounded y, rounded x), as sorted(key=...) does. -/
def sortBlocks (l : List Block) : List Block := l.foldr insertBlock []

def pageTexts (pg : List Block) : List (List Char) :=
  ((sortBlocks pg).filter fun b => !(stripChars b.text).isEmpty).map fun b => norm_ws b.text

/-- Reconstructed document text: per page, blocks sorted into reading
order, empty blocks dropped, block texts normalized, all joined by
newlines. -/
def reconstructText (doc : List (List Block)) : List Char :=
  List.intercalate ['\n'] (doc.map pageTexts).flatten

/-- Model of extract_insurance_data.  The fitz call is external: bytes that
cannot be opened as a PDF are the `none` input and take the except branch,
which returns the empty dict; a successful open yields the page/block
structure and the five-pair mapping, in insertion order. -/
def extract_insurance_data (input : Option (List (List Block))) : List (String × String) :=
  match input with
  | none => []
  | some doc =>
    let f := extract_fields (reconstructText doc)
    [("name", String.mk f.name), ("vin_number", String.mk f.vin_number),
     ("plate_number", String.mk f.plate_number),
     ("insurance_start", String.mk f.insurance_start),
     ("insurance_end", String.mk f.insurance_end)]

/-- Model of validate_vin (app/validators.py): re.match with an anchored
17-character VIN pattern succeeds exactly on 17 VIN characters, optionally
followed by one final newline (the $ of Python re). -/
def validate_vin (s : List Char) : Bool :=
  (s.length == 17 && s.all isVinChar) ||
  (s.length == 18 && s.getLastD (Char.ofNat 0) == '\n' && (s.take 17).all isVinChar)

-- ===== concrete documents used as inputs in the theorems below =====

def tPlateB : List Char := "polita B99ABC".data

def tPlateIS : List Char := "polita IS99ABC".data

def tPana : List Char :=
  "valabilitate de la 05.06.2024 până la 05.06.2025 tot 31.12.2030".data

def tValab : List Char := "valabilitate: de la 01.03.2024 până la 01.03.2025".data

def tFallback : List Char := "contract 10.01.2023 text 10.01.2024 fine".data

def tVin : List Char := "serie WVWZZZ1JZ3W386752 ok".data

def tVin2 : List Char := "sasiu 1FTFW1ET5DFC10312".data

def tName : List Char := "ALPHA BETA si asigurat POPESCU ION".data

def docDet : List (List Block) := [[Block.mk 0 0 ("asigurat ION POP".data)]]

def fiveEmptyMapping : List (String × String) :=
  [("name", ""), ("vin_number", ""), ("plate_number", ""),
   ("insurance_start", ""), ("insurance_end", "")]

-- ===== helper lemmas =====

theorem firstIdxFrom_some {p : Nat → Bool} :
    ∀ {f i j : Nat}, firstIdxFrom p i f = some j → p j = true := by
  intro f
  induction f with
  | zero => intro i j h; simp [firstIdxFrom] at h
  | succ f ih =>
    intro i j h
    unfold firstIdxFrom at h
    by_cases hp : p i = true
    · rw [if_pos hp] at h
      injection h with h2
      exact h2 ▸ hp
    · rw [if_neg hp] at h
      exact ih h

theorem firstIdxFrom_isSome {p : Nat → Bool} :
    ∀ {f i j : Nat}, i ≤ j → j < i + f → p j = true → (firstIdxFrom p i f).isSome = true := by
  intro f
  induction f with
  | zero => intro i j h1 h2 h3; omega
  | succ f ih =>
    intro i j h1 h2 h3
    unfold firstIdxFrom
    by_cases hp : p i = true
    · rw [if_pos hp]; rfl
    · rw [if_neg hp]
      have hij : i ≠ j := fun e => hp (e ▸ h3)
      exact ih (by omega) (by omega) h3

theorem dropWhile_eq_self_of_all {p : Char → Bool} :
    ∀ (l : List Char), (∀ c ∈ l, p c = false) → l.dropWhile p = l := by
  intro l h
  cases l with
  | nil => rfl
  | cons c cs => simp [List.dropWhile_cons, h c (by simp)]

theorem stripChars_all_nonws {l : List Char} (h : ∀ c ∈ l, isWsChar c = false) :
    stripChars l = l := by
  have h1 : l.dropWhile isWsChar = l := dropWhile_eq_self_of_all l h
  have h2 : l.reverse.dropWhile isWsChar = l.reverse :=
    dropWhile_eq_self_of_all l.reverse (fun c hc => h c (List.mem_reverse.mp hc))
  unfold stripChars
  rw [h1, h2, List.reverse_reverse]

theorem ws_not_vin {c : Char} (h : isWsChar c = true) : isVinChar c = false := by
  unfold isWsChar at h
  simp only [Bool.or_eq_true, beq_iff_eq] at h
  rcases h with ((((h | h) | h) | h) | h) | h <;> subst h <;> decide

theorem vin_char_not_ws {c : Char} (h : isVinChar c = true) : isWsChar c = false := by
  cases hw : isWsChar c with
  | false => rfl
  | true => rw [ws_not_vin hw] at h; simp at h

theorem vinHit_parts {s : List Char} {i : Nat} (h : vinHit s i = true) :
    i + 17 ≤ s.length ∧ (sliceTD s i 17).all isVinChar = true := by
  unfold vinHit at h
  simp only [Bool.and_eq_true, decide_eq_true_eq] at h
  exact ⟨h.1.1.1, h.1.2⟩

theorem sliceTD_length {s : List Char} {i n : Nat} (h : i + n ≤ s.length) :
    (sliceTD s i n).length = n := by
  unfold sliceTD
  rw [List.length_take, List.length_drop]
  omega

theorem stripChars_of_vin {v : List Char} (h : v.all isVinChar = true) : stripChars v = v :=
  stripChars_all_nonws (fun c hc => vin_char_not_ws (List.all_eq_true.mp h c hc))

theorem vinSearch_sound {s v : List Char} (h : vinSearch s = some v) :
    v.length = 17 ∧ v.all isVinChar = true := by
  unfold vinSearch at h
  cases hf : firstIdx (fun i => vinHit s i) s.length with
  | none => rw [hf] at h; simp at h
  | some i =>
    rw [hf] at h
    simp only [Option.map_some'] at h
    have hp : vinHit s i = true := firstIdxFrom_some hf
    obtain ⟨hlen, hall⟩ := vinHit_parts hp
    injection h with h
    subst h
    exact ⟨sliceTD_length hlen, hall⟩

theorem vinSearch_of_unique {s : List Char} {i : Nat}
    (hh : vinHit s i = true)
    (hu : ∀ j, j < s.length → vinHit s j = true → j = i) :
    vinSearch s = some (sliceTD s i 17) := by
  obtain ⟨hlen, -⟩ := vinHit_parts hh
  have hi : i < s.length := by omega
  have hh2 : (fun k => vinHit s k) i = true := hh
  have hsome : (firstIdx (fun k => vinHit s k) s.length).isSome = true :=
    firstIdxFrom_isSome (Nat.zero_le i) (by omega) hh2
  obtain ⟨j, hj⟩ := Option.isSome_iff_exists.mp hsome
  have hpj : vinHit s j = true := firstIdxFrom_some hj
  obtain ⟨hjlen, -⟩ := vinHit_parts hpj
  have hji : j = i := hu j (by omega) hpj
  unfold vinSearch
  rw [hj, hji]
  rfl

-- ===== claim theorems =====

/-- Claim C1 (corrected): on a byte sequence that cannot be opened as a
PDF, extract_insurance_data does not raise, but it returns the empty
mapping with no keys at all (the source returns a bare empty dict from the
except branch), not the five-key all-empty mapping. -/
theorem parse_failure_returns_empty_dict : extract_insurance_data none = [] := rfl

/-- Claim C1 counterexample: at the concrete unopenable input, the result
is not the five-key all-empty mapping the claim demands. -/
theorem parse_failure_five_keys_cex :
    ¬ (extract_insurance_data none = fiveEmptyMapping) := by decide

/-- Claim C2 (corrected): for every byte sequence that opens as a PDF, the
returned mapping has exactly the five keys name, vin_number, plate_number,
insurance_start, insurance_end, in that order, each bound to a string;
fields that were not located stay bound to the empty string rather than
being dropped. -/
theorem success_keys_exact_five (doc : List (List Block)) :
    (extract_insurance_data (some doc)).map Prod.fst =
      ["name", "vin_number", "plate_number", "insurance_start", "insurance_end"] := rfl

/-- Claim C2 counterexample: for an unopenable byte sequence the key set is
empty, so the five-key invariant does not hold for every input. -/
theorem all_inputs_five_keys_cex :
    ¬ ((extract_insurance_data none).map Prod.fst =
       ["name", "vin_number", "plate_number", "insurance_start", "insurance_end"]) := by decide

/-- Claim C3 (code bug): the word-bounded token B99ABC is matched by the
plate pattern, but normalize_plate strips it to a six-character string and
the length guard (7 or 8) skips the respacing branch, so the extractor
returns "B99ABC" instead of the documented "B 99 ABC"; the seven-character
token IS99ABC is respaced as documented. -/
theorem plate_b99abc_not_respaced :
    (extract_fields tPlateB).plate_number = "B99ABC".data ∧
    (extract_fields tPlateIS).plate_number = "IS 99 ABC".data ∧
    normalize_plate ("B99ABC".data) = "B99ABC".data := by
  refine ⟨by decide, by decide, by decide⟩

/-- Claim C4 (code bug): in a document whose validity window contains
"de la 05.06.2024" and "până la 05.06.2025", the end-date pattern
p[aă]n[ăa]\s*la never matches the Romanian spelling "până" (letter â), so
the window search for the end date fails and the whole-document fallback
returns the latest date in the body (2030-12-31) instead of the "până la"
date required by the claim. -/
theorem pana_la_diacritic_window_bug :
    (strFindIdx (date_window (norm_ws tPana)) ("până la 05.06.2025".data)).isSome = true ∧
    panaSearch (date_window (norm_ws tPana)) = none ∧
    (extract_fields tPana).insurance_start = "2024-06-05".data ∧
    (extract_fields tPana).insurance_end = "2030-12-31".data := by
  refine ⟨by decide, by decide, by decide, by decide⟩

/-- Claim C5: for a document whose reconstructed text contains
"valabilitate: de la 01.03.2024 până la 01.03.2025" and no other date
tokens, the start is 2024-03-01 and the end is 2025-03-01.  The
containment condition is rendered through the scan primitives of the
extractor: the windowed de-la search can only find the 01.03.2024 token or
nothing (window truncation), the windowed până-la search finds the
01.03.2025 token or nothing, and the whole-document scan yields exactly
the two tokens; the conclusion holds on every combination, the fallback
supplying whichever side the window missed. -/
theorem valabilitate_phrase_dates (t : List Char)
    (h1 : deLaSearch (date_window (norm_ws t)) = none ∨
          deLaSearch (date_window (norm_ws t)) = some ("01.03.2024".data))
    (h2 : panaSearch (date_window (norm_ws t)) = none ∨
          panaSearch (date_window (norm_ws t)) = some ("01.03.2025".data))
    (h3 : sortedDates (norm_ws t) = ["2024-03-01".data, "2025-03-01".data]) :
    (extract_fields t).insurance_start = "2024-03-01".data ∧
    (extract_fields t).insurance_end = "2025-03-01".data := by
  have hp1 : (extract_fields t).insurance_start = (datesOf (norm_ws t)).1 := rfl
  have hp2 : (extract_fields t).insurance_end = (datesOf (norm_ws t)).2 := rfl
  have hs : windowStart (norm_ws t) = [] ∨ windowStart (norm_ws t) = "2024-03-01".data := by
    rcases h1 with h | h
    · left; unfold windowStart; rw [h]
    · right; unfold windowStart; rw [h]; decide
  have he : windowEnd (norm_ws t) = [] ∨ windowEnd (norm_ws t) = "2025-03-01".data := by
    rcases h2 with h | h
    · left; unfold windowEnd; rw [h]
    · right; unfold windowEnd; rw [h]; decide
  rw [hp1, hp2]
  unfold datesOf
  rcases hs with hs | hs <;> rcases he with he | he <;> rw [hs, he, h3] <;> exact ⟨by decide, by decide⟩

/-- Claim C5 witness: the phrase itself as the whole document. -/
theorem valabilitate_phrase_dates_witness :
    (extract_fields tValab).insurance_start = "2024-03-01".data ∧
    (extract_fields tValab).insurance_end = "2025-03-01".data :=
  valabilitate_phrase_dates tValab (Or.inr (by decide)) (Or.inl (by decide)) (by decide)

/-- Claim C6: whenever the windowed date search leaves the start (resp.
end) missing, the extractor scans the whole document for date tokens,
parses, deduplicates and sorts them, and takes the earliest as the start;
the latest becomes the end only when at least two distinct dates exist. -/
theorem date_fallback_earliest_latest (t : List Char) :
    (windowStart (norm_ws t) = [] →
        (extract_fields t).insurance_start = (sortedDates (norm_ws t)).headD []) ∧
    (windowEnd (norm_ws t) = [] →
        (extract_fields t).insurance_end =
          (if 1 < (sortedDates (norm_ws t)).length
           then (sortedDates (norm_ws t)).getLastD [] else [])) := by
  constructor
  · intro hs
    have hp : (extract_fields t).insurance_start = (datesOf (norm_ws t)).1 := rfl
    rw [hp]
    unfold datesOf
    rw [hs]
    by_cases hps : (sortedDates (norm_ws t)).isEmpty = true
    · have h0 : sortedDates (norm_ws t) = [] := by
        cases hx : sortedDates (norm_ws t) with
        | nil => rfl
        | cons a l => rw [hx] at hps; simp at hps
      rw [h0]
      simp
    · have hb : (sortedDates (norm_ws t)).isEmpty = false := by
        cases hx : (sortedDates (norm_ws t)).isEmpty with
        | false => rfl
        | true => exact absurd hx hps
      simp [hb]
  · intro he
    have hp : (extract_fields t).insurance_end = (datesOf (norm_ws t)).2 := rfl
    rw [hp]
    unfold datesOf
    rw [he]
    by_cases hps : (sortedDates (norm_ws t)).isEmpty = true
    · have h0 : sortedDates (norm_ws t) = [] := by
        cases hx : sortedDates (norm_ws t) with
        | nil => rfl
        | cons a l => rw [hx] at hps; simp at hps
      rw [h0]
      simp
    · have hb : (sortedDates (norm_ws t)).isEmpty = false := by
        cases hx : (sortedDates (norm_ws t)).isEmpty with
        | false => rfl
        | true => exact absurd hx hps
      simp [hb]

/-- Claim C6 witness: a document with no validity label and the two dates
10.01.2023 and 10.01.2024 in the body yields the earliest as start and the
latest as end. -/
theorem date_fallback_earliest_latest_witness :
    (extract_fields tFallback).insurance_start = "2023-01-10".data ∧
    (extract_fields tFallback).insurance_end = "2024-01-10".data := by
  constructor
  · have h := (date_fallback_earliest_latest tFallback).1 (by decide)
    rw [h]; decide
  · have h := (date_fallback_earliest_latest tFallback).2 (by decide)
    rw [h]; decide

/-- Claim C7: when the reconstructed text carries a word-bounded
17-character VIN-alphabet token at exactly one position, the returned
vin_number is that token, character for character. -/
theorem unique_vin_token_extracted (t : List Char) (i : Nat)
    (hh : vinHit (norm_ws t) i = true)
    (hu : ∀ j, j < (norm_ws t).length → vinHit (norm_ws t) j = true → j = i) :
    (extract_fields t).vin_number = sliceTD (norm_ws t) i 17 := by
  have hs := vinSearch_of_unique hh hu
  obtain ⟨-, hall⟩ := vinHit_parts hh
  have hv : (extract_fields t).vin_number = stripChars (vinOf (norm_ws t)) := rfl
  rw [hv]
  have he : vinOf (norm_ws t) = sliceTD (norm_ws t) i 17 := by
    unfold vinOf
    rw [hs]
  rw [he]
  exact stripChars_of_vin hall

/-- Claim C7 witness: a document with a single VIN token. -/
theorem unique_vin_token_extracted_witness :
    (extract_fields tVin).vin_number = "WVWZZZ1JZ3W386752".data := by
  have h := unique_vin_token_extracted tVin 6 (by decide) (by decide)
  rw [h]
  decide

/-- Claim C8: the name comes from the 2-to-4-word all-caps run found in
the ownership-label window whenever the windowed pattern matches anywhere
in that window (so the windowed match is preferred over any run elsewhere
in the document); only when the window yields no match does the extractor
fall back to the first 2-to-3-word all-caps run of the whole document. -/
theorem name_window_preferred (t : List Char) :
    (∀ s, nameWinSearch (find_after (norm_ws t) nameLabels 120) = some s →
        (extract_fields t).name = stripChars s) ∧
    (nameWinSearch (find_after (norm_ws t) nameLabels 120) = none →
        (extract_fields t).name =
          (match nameFallSearch (norm_ws t) with
           | some r => stripChars r
           | none => [])) ∧
    (∀ i, i < (find_after (norm_ws t) nameLabels 120).length →
        (nameWinHit (find_after (norm_ws t) nameLabels 120) i).isSome = true →
        nameWinSearch (find_after (norm_ws t) nameLabels 120) ≠ none) := by
  refine ⟨?_, ?_, ?_⟩
  · intro s hw
    have hn : (extract_fields t).name = stripChars (nameOf (norm_ws t)) := rfl
    rw [hn]
    unfold nameOf
    rw [hw]
  · intro hw
    have hn : (extract_fields t).name = stripChars (nameOf (norm_ws t)) := rfl
    rw [hn]
    unfold nameOf
    rw [hw]
    cases hf : nameFallSearch (norm_ws t) with
    | some r => rfl
    | none => rfl
  · intro i hlt hhit hnone
    have hhit2 : (fun k => (nameWinHit (find_after (norm_ws t) nameLabels 120) k).isSome) i = true := hhit
    have hsome : (firstIdx (fun k => (nameWinHit (find_after (norm_ws t) nameLabels 120) k).isSome)
        (find_after (norm_ws t) nameLabels 120).length).isSome = true :=
      firstIdxFrom_isSome (Nat.zero_le i) (by omega) hhit2
    obtain ⟨j, hj⟩ := Option.isSome_iff_exists.mp hsome
    have hpj : (nameWinHit (find_after (norm_ws t) nameLabels 120) j).isSome = true :=
      firstIdxFrom_some hj
    have hred : nameWinSearch (find_after (norm_ws t) nameLabels 120) =
        nameWinHit (find_after (norm_ws t) nameLabels 120) j := by
      unfold nameWinSearch
      rw [hj]
    rw [hred] at hnone
    rw [hnone] at hpj
    simp at hpj

/-- Claim C8 witness: a document with an all-caps run before the label and
another inside the asigurat window; the windowed run wins. -/
theorem name_window_preferred_witness :
    (extract_fields tName).name = "POPESCU ION".data := by
  have h := (name_window_preferred tName).1 ("POPESCU ION".data) (by decide)
  rw [h]
  decide

/-- Claim C9: the extractor is a pure function of its input; identical
inputs yield identical mappings. -/
theorem extractor_deterministic (a b : Option (List (List Block))) (h : a = b) :
    extract_insurance_data a = extract_insurance_data b := by rw [h]

/-- Claim C9 witness: two runs on the same concrete document agree. -/
theorem extractor_deterministic_witness :
    extract_insurance_data (some docDet) = extract_insurance_data (some docDet) :=
  extractor_deterministic (some docDet) (some docDet) rfl

/-- Claim C10: a non-empty extracted vin_number is always a 17-character
string over the VIN alphabet, and validate_vin accepts it. -/
theorem vin_result_always_valid (t : List Char)
    (h : (extract_fields t).vin_number ≠ []) :
    (extract_fields t).vin_number.length = 17 ∧
    (extract_fields t).vin_number.all isVinChar = true ∧
    validate_vin ((extract_fields t).vin_number) = true := by
  have hv : (extract_fields t).vin_number = stripChars (vinOf (norm_ws t)) := rfl
  rw [hv] at h ⊢
  cases h1 : vinSearch (norm_ws t) with
  | some v =>
    obtain ⟨hl, ha⟩ := vinSearch_sound h1
    have he : vinOf (norm_ws t) = v := by unfold vinOf; rw [h1]
    rw [he, stripChars_of_vin ha]
    refine ⟨hl, ha, ?_⟩
    unfold validate_vin
    simp [hl, ha]
  | none =>
    cases h2 : vinSearch (find_after (norm_ws t) vinLabels 120) with
    | some v =>
      obtain ⟨hl, ha⟩ := vinSearch_sound h2
      have he : vinOf (norm_ws t) = v := by unfold vinOf; rw [h1, h2]
      rw [he, stripChars_of_vin ha]
      refine ⟨hl, ha, ?_⟩
      unfold validate_vin
      simp [hl, ha]
    | none =>
      exfalso
      apply h
      have he : vinOf (norm_ws t) = [] := by unfold vinOf; rw [h1, h2]
      rw [he]
      rfl

/-- Claim C10 witness: a document with a VIN token; the extracted value is
non-empty and validate_vin accepts it. -/
theorem vin_result_always_valid_witness :
    (extract_fields tVin2).vin_number ≠ [] ∧
    validate_vin ((extract_fields tVin2).vin_number) = true :=
  ⟨by decide, (vin_result_always_valid tVin2 (by decide)).2.2⟩
